import Mathlib

/-!
Verification of `mutable_sql_detector.py` (aurora-dsql-mcp-server).

The source module defines three pure entry points over an input SQL string:
`detect_mutating_keywords`, `check_sql_injection_risk` and
`detect_transaction_bypass_attempt`, all built from Python `re` regular
expressions over fixed, module-level pattern tables.

The embedding below models each regular expression by a hand-translated
backtracking matcher over `List Char`.  Characters are compared by their
code points (`Char.toNat`); the Python character classes `\s`, `\w`, `\d`
are modelled by their ASCII parts, which is exact on ASCII input.
Every star/plus in the source regexes ranges over a single-character
class, so the classic continuation-passing backtracking combinators
(`clsStar`, `clsPlus`, `litK`, ...) exactly implement the boolean
"does the pattern match here" semantics, exploring every split exactly
as the Python engine's backtracking does.
-/

set_option maxRecDepth 8000

namespace MutableSqlDetector

/-! ### Character classes (ASCII model of Python `\s`, `\w`, `\d`) -/

/-- The single character with code `n` (used for `;`, `(`, `=`, quote, ...). -/
def isChar (n : Nat) (c : Char) : Bool := decide (c.toNat = n)

/-- Python `\s` (ASCII part): space, tab, newline, carriage return, vertical tab, form feed. -/
def isSpc (c : Char) : Bool :=
  isChar 32 c || isChar 9 c || isChar 10 c || isChar 13 c || isChar 11 c || isChar 12 c

/-- Python `\d` (ASCII part). -/
def isDigitC (c : Char) : Bool := decide (48 ≤ c.toNat ∧ c.toNat ≤ 57)

/-- Python `\w` (ASCII part): letters, digits, underscore. -/
def isWordC (c : Char) : Bool :=
  decide ((65 ≤ c.toNat ∧ c.toNat ≤ 90) ∨ (97 ≤ c.toNat ∧ c.toNat ≤ 122) ∨
          (48 ≤ c.toNat ∧ c.toNat ≤ 57) ∨ c.toNat = 95)

/-- Python `.` without `re.DOTALL`: any character except newline. -/
def notNL (c : Char) : Bool := !isChar 10 c

/-- ASCII lower-casing on code points, for `re.IGNORECASE` matching. -/
def lowerN (n : Nat) : Nat := if 65 ≤ n ∧ n ≤ 90 then n + 32 else n

/-- Case-insensitive character comparison (`re.IGNORECASE`). -/
def ciEq (a b : Char) : Bool := decide (lowerN a.toNat = lowerN b.toNat)

/-! ### Regex combinators -/

/-- A continuation: a predicate on the rest of the input after the part
matched so far. -/
abbrev K := List Char → Bool

/-- Empty continuation: the pattern has fully matched (a `re.search` hit). -/
def epsK : K := fun _ => true

/-- Match the literal word `w` case-insensitively, then continue. -/
def stripCI : List Char → List Char → Option (List Char)
  | [], s => some s
  | _ :: _, [] => none
  | k :: ks, c :: cs => if ciEq k c then stripCI ks cs else none

def litK (w : List Char) (k : K) : K := fun s =>
  match stripCI w s with
  | some r => k r
  | none => false

/-- A single character of class `p`, then continue. -/
def cls (p : Char → Bool) (k : K) : List Char → Bool
  | [] => false
  | c :: r => p c && k r

/-- `p*` over a single-character class: try every number of consumed
characters (this explores exactly the splits Python backtracking explores;
for a boolean result greedy/lazy order is irrelevant). -/
def clsStar (p : Char → Bool) (k : K) : List Char → Bool
  | [] => k []
  | c :: r => k (c :: r) || (p c && clsStar p k r)

/-- `p+` over a single-character class. -/
def clsPlus (p : Char → Bool) (k : K) : K := fun s =>
  match s with
  | [] => false
  | c :: r => p c && clsStar p k r

/-- `p*` that also tracks whether the previously consumed character is a
word character, for a `\b` occurring after the star (pattern `.*\bselect`). -/
def clsStarB (p : Char → Bool) (k : Bool → List Char → Bool) : List Char → Bool → Bool
  | [], prevW => k prevW []
  | c :: r, prevW => k prevW (c :: r) || (p c && clsStarB p k r (isWordC c))

/-- `\b` placed right after a literal that ends in a word character: it
holds iff the next character is absent or not a word character. -/
def atBoundary : List Char → Bool
  | [] => true
  | c :: _ => !isWordC c

def bEnd : K := fun s => atBoundary s

/-- `re.search` for a pattern that cannot match the empty string and does
not start with `\b` (it needs at least one character, so the end-of-string
position never matches and is not tried). -/
def searchK (m : K) : List Char → Bool
  | [] => false
  | c :: r => m (c :: r) || searchK m r

/-- `re.search` for a pattern of the form `\bW...` where `W` starts with a
word character: at each position the `\b` holds iff the previous character
is not a word character (at the start of the string it always holds). -/
def searchBW (m : K) : List Char → Bool → Bool
  | [], _ => false
  | c :: r, prevW => (!prevW && m (c :: r)) || searchBW m r (isWordC c)

/-- Does `t` start (case-insensitively) with the word `w`? -/
def startsCI (w t : List Char) : Bool := (stripCI w t).isSome

/-! ### The anchored category regexes

Each source regex has the shape `^\s*( alt₁ | alt₂ | ... )\b` with
`re.IGNORECASE | re.VERBOSE`.  `^` (no `re.MULTILINE`) anchors the match
at position 0 only, so `REGEX.search(sql)` is `clsStar isSpc alts sql.data`.
Optional groups such as `GRANT(\s+ROLE)?` are expanded into the
disjunction of their instances, which is what the backtracking engine
tries; the trailing `\b` is `bEnd` since every alternative ends in a word
character (or is handled specially below). -/

/-- `W₁\s+W₂\s+...\s+Wₙ` for literal words, then continue. -/
def seqW : List (List Char) → K → K
  | [], k => k
  | [w], k => litK w k
  | w :: ws, k => litK w (clsPlus isSpc (seqW ws k))

def ddlObjs : List (List Char) :=
  ["TABLE".data, "VIEW".data, "INDEX".data, "TRIGGER".data, "PROCEDURE".data,
   "FUNCTION".data, "EVENT".data, "SCHEMA".data, "DATABASE".data, "ROLE".data, "USER".data]

/-- `ALTER` excludes `INDEX` in the source regex. -/
def alterObjs : List (List Char) :=
  ["TABLE".data, "VIEW".data, "TRIGGER".data, "PROCEDURE".data,
   "FUNCTION".data, "EVENT".data, "SCHEMA".data, "DATABASE".data, "ROLE".data, "USER".data]

/-- Alternatives of `DDL_REGEX`. -/
def ddlAlt : K := fun s =>
  (ddlObjs.any fun o => seqW ["CREATE".data, o] bEnd s) ||
  (ddlObjs.any fun o => seqW ["DROP".data, o] bEnd s) ||
  (alterObjs.any fun o => seqW ["ALTER".data, o] bEnd s) ||
  seqW ["RENAME".data, "TABLE".data] bEnd s ||
  seqW ["TRUNCATE".data] bEnd s

/-- `DDL_REGEX.search(sql)` as a boolean. -/
def DDL_REGEX_search (sql : String) : Bool := clsStar isSpc ddlAlt sql.data

/-- Alternatives of `PERMISSION_REGEX` (optional groups expanded). -/
def permAlt : K := fun s =>
  seqW ["GRANT".data] bEnd s || seqW ["GRANT".data, "ROLE".data] bEnd s ||
  seqW ["REVOKE".data] bEnd s || seqW ["REVOKE".data, "ROLE".data] bEnd s ||
  seqW ["CREATE".data, "USER".data] bEnd s || seqW ["CREATE".data, "ROLE".data] bEnd s ||
  seqW ["DROP".data, "USER".data] bEnd s || seqW ["DROP".data, "ROLE".data] bEnd s ||
  seqW ["SET".data, "DEFAULT".data, "ROLE".data] bEnd s ||
  seqW ["SET".data, "PASSWORD".data] bEnd s ||
  seqW ["ALTER".data, "USER".data] bEnd s ||
  seqW ["RENAME".data, "USER".data] bEnd s

def PERMISSION_REGEX_search (sql : String) : Bool := clsStar isSpc permAlt sql.data

/-- The `FLUSH\s+(PRIVILEGES|HOSTS|LOGS|STATUS|TABLES)?` alternative of
`SYSTEM_REGEX`, followed by the regex's trailing `\b`.  After `FLUSH` at
least one whitespace character is mandatory; if the optional group is
empty, the previous character at the `\b` is whitespace, so the boundary
holds iff the next character is a word character. -/
def flushAlt : K :=
  litK "FLUSH".data (clsPlus isSpc (fun s =>
    (["PRIVILEGES".data, "HOSTS".data, "LOGS".data, "STATUS".data, "TABLES".data].any
       fun f => litK f bEnd s) ||
    (match s with
     | c :: _ => isWordC c
     | [] => false)))

/-- `SELECT\s+.*\s+INTO\s+OUTFILE` (the `.*` cannot cross a newline, the
`\s+` can). -/
def selOutfileAlt : K :=
  litK "SELECT".data (clsPlus isSpc (clsStar notNL (clsPlus isSpc
    (litK "INTO".data (clsPlus isSpc (litK "OUTFILE".data bEnd))))))

/-- `USE\s+\w+` followed by `\b`. -/
def useAlt : K := litK "USE".data (clsPlus isSpc (clsPlus isWordC bEnd))

/-- `COPY\s+.*\s+FROM` followed by `\b`. -/
def copyFromAlt : K :=
  litK "COPY".data (clsPlus isSpc (clsStar notNL (clsPlus isSpc (litK "FROM".data bEnd))))

/-- `COPY\s+.*\s+TO` followed by `\b`. -/
def copyToAlt : K :=
  litK "COPY".data (clsPlus isSpc (clsStar notNL (clsPlus isSpc (litK "TO".data bEnd))))

/-- Alternatives of `SYSTEM_REGEX`, in source order. -/
def sysAlt : K := fun s =>
  seqW ["SET".data, "GLOBAL".data] bEnd s ||
  seqW ["SET".data, "PERSIST".data] bEnd s ||
  seqW ["SET".data, "SESSION".data] bEnd s ||
  seqW ["RESET".data, "PERSIST".data] bEnd s ||
  seqW ["RESET".data, "MASTER".data] bEnd s ||
  seqW ["RESET".data, "SLAVE".data] bEnd s ||
  flushAlt s ||
  seqW ["INSTALL".data, "PLUGIN".data] bEnd s ||
  seqW ["UNINSTALL".data, "PLUGIN".data] bEnd s ||
  seqW ["CHANGE".data, "MASTER".data, "TO".data] bEnd s ||
  seqW ["START".data, "SLAVE".data] bEnd s ||
  seqW ["STOP".data, "SLAVE".data] bEnd s ||
  seqW ["SET".data, "GTID_PURGED".data] bEnd s ||
  seqW ["PURGE".data, "BINARY".data, "LOGS".data] bEnd s ||
  seqW ["LOAD".data, "DATA".data, "INFILE".data] bEnd s ||
  selOutfileAlt s ||
  useAlt s ||
  seqW ["SET".data, "autocommit".data] bEnd s ||
  copyFromAlt s ||
  copyToAlt s

def SYSTEM_REGEX_search (sql : String) : Bool := clsStar isSpc sysAlt sql.data

/-- Alternatives of `TRANSACTION_CONTROL_REGEX` (optional groups expanded). -/
def tcAlt : K := fun s =>
  seqW ["BEGIN".data] bEnd s ||
  seqW ["BEGIN".data, "TRANSACTION".data] bEnd s ||
  seqW ["BEGIN".data, "READ".data, "ONLY".data] bEnd s ||
  seqW ["BEGIN".data, "TRANSACTION".data, "READ".data, "ONLY".data] bEnd s ||
  seqW ["COMMIT".data] bEnd s ||
  seqW ["COMMIT".data, "TRANSACTION".data] bEnd s ||
  seqW ["ROLLBACK".data] bEnd s ||
  seqW ["ROLLBACK".data, "TRANSACTION".data] bEnd s ||
  seqW ["SAVEPOINT".data] bEnd s ||
  seqW ["RELEASE".data, "SAVEPOINT".data] bEnd s ||
  seqW ["START".data, "TRANSACTION".data] bEnd s

def TRANSACTION_CONTROL_REGEX_search (sql : String) : Bool := clsStar isSpc tcAlt sql.data

/-! ### `MUTATING_KEYWORDS` and `detect_mutating_keywords` -/

/-- The mutating keyword set, in source textual order.  (In the source it
is a Python `set`; its iteration order only influences the alternation
order inside `MUTATING_PATTERN`, which is irrelevant here because no two
keywords can produce overlapping whole-word matches at the same position.) -/
def MUTATING_KEYWORDS : List String :=
  ["INSERT", "UPDATE", "DELETE", "REPLACE", "TRUNCATE", "CREATE", "DROP", "ALTER",
   "RENAME", "GRANT", "REVOKE", "LOAD DATA", "LOAD XML", "INSTALL PLUGIN",
   "UNINSTALL PLUGIN", "COPY", "MERGE", "UPSERT"]

/-- `MUTATING_PATTERN` = `(?i)\b(k₁|k₂|...)\b`, restricted to the single
keyword `kw`: is there a whole-word, case-insensitive occurrence of `kw`?
`MUTATING_PATTERN.findall(sql)` upper-cases to the set of keywords with
such an occurrence: every match text upper-cases to its keyword (matching
is exact up to letter case), no keyword of the set occurs with word
boundaries strictly inside a match of another, and no keyword is a
whole-word prefix of another, so the non-overlapping left-to-right scan
of `findall` loses no keyword. -/
def keywordOccurs (kw : String) (sql : String) : Bool :=
  searchBW (litK kw.data bEnd) sql.data false

/-- Code-point lexicographic order on char lists (Python string `<`). -/
def lexLe : List Char → List Char → Bool
  | [], _ => true
  | _ :: _, [] => false
  | a :: as, b :: bs =>
      decide (a.toNat < b.toNat) || (decide (a.toNat = b.toNat) && lexLe as bs)

def strLe (a b : String) : Bool := lexLe a.data b.data

/-- Insertion sort implementing Python's `sorted` on strings. -/
def insertSorted (x : String) : List String → List String
  | [] => [x]
  | y :: ys => if strLe x y then x :: y :: ys else y :: insertSorted x ys

def sortStrs : List String → List String
  | [] => []
  | x :: xs => insertSorted x (sortStrs xs)

/-- `detect_mutating_keywords`: the four anchored category checks append
their labels in source order, then `sorted({k.upper() for k in
MUTATING_PATTERN.findall(sql)})` is appended. -/
def detect_mutating_keywords (sql : String) : List String :=
  (if DDL_REGEX_search sql then ["DDL"] else []) ++
  (if PERMISSION_REGEX_search sql then ["PERMISSION"] else []) ++
  (if SYSTEM_REGEX_search sql then ["SYSTEM"] else []) ++
  (if TRANSACTION_CONTROL_REGEX_search sql then ["TRANSACTION_CONTROL"] else []) ++
  sortStrs (MUTATING_KEYWORDS.filter fun k => keywordOccurs k sql)

/-! ### `SUSPICIOUS_PATTERNS` and `check_sql_injection_risk` -/

/-- The single-quote character (code 39). -/
def quoteC : Char := Char.ofNat 39

def sq : String := String.mk [quoteC]

/-- Pattern 1, `(?i)'.*?--`: a quote, then non-newline characters, then `--`. -/
def pat1K : K := cls (isChar 39) (clsStar notNL (litK "--".data epsK))

/-- Pattern 2, `(?i)\bor\b\s+\d+\s*=\s*\d+` (after the leading `\b`). -/
def pat2K : K :=
  litK "or".data (fun s => atBoundary s &&
    clsPlus isSpc (clsPlus isDigitC (clsStar isSpc (cls (isChar 61)
      (clsStar isSpc (clsPlus isDigitC epsK))))) s)

/-- `'[^']+'` then continue (`[^']` also matches newline). -/
def quotedChunk (k : K) : K :=
  cls (isChar 39) (clsPlus (fun c => !isChar 39 c) (cls (isChar 39) k))

/-- Pattern 3, `(?i)\bor\b\s*'[^']+'\s*=\s*'[^']+'` (after the leading `\b`). -/
def pat3K : K :=
  litK "or".data (fun s => atBoundary s &&
    clsStar isSpc (quotedChunk (clsStar isSpc (cls (isChar 61)
      (clsStar isSpc (quotedChunk epsK))))) s)

/-- Pattern 4, `(?i)\bunion\b.*\bselect\b` (after the leading `\b`): the
`.*` cannot cross a newline; the `\b` before `select` needs the previously
consumed character to not be a word character (initially it is the `n` of
`union`, a word character). -/
def pat4K : K :=
  litK "union".data (fun s => atBoundary s &&
    clsStarB notNL (fun prevW t => !prevW && litK "select".data bEnd t) s true)

/-- Pattern 5, `(?i)\bdrop\b` (after the leading `\b`). -/
def pat5K : K := litK "drop".data bEnd

/-- Pattern 6, `(?i)\btruncate\b` (after the leading `\b`). -/
def pat6K : K := litK "truncate".data bEnd

/-- Pattern 7, `(?i)\bgrant\b|\brevoke\b` (after the leading `\b` of
either alternative; both start with a word character). -/
def pat7K : K := fun s => litK "grant".data bEnd s || litK "revoke".data bEnd s

/-- `$` without `re.MULTILINE`: end of input, or just before a final newline. -/
def dollarAt : List Char → Bool
  | [] => true
  | c :: r => isChar 10 c && r.isEmpty

/-- The lookahead body `($|\s*--|\s*/\*)` of pattern 8, anchored at the
current position. -/
def laInner : K := fun s =>
  dollarAt s || clsStar isSpc (litK "--".data epsK) s || clsStar isSpc (litK "/*".data epsK) s

def nonSpcHead : List Char → Bool
  | [] => false
  | c :: _ => !isSpc c

/-- Pattern 8, `;\s*(?!($|\s*--|\s*/\*))(?=\S)`: a semicolon, whitespace,
then the negative lookahead and the positive `\S` lookahead at the same
position. -/
def pat8K : K := cls (isChar 59) (clsStar isSpc (fun s => !laInner s && nonSpcHead s))

/-- Pattern 9, `(?i)\bsleep\s*\(` (after the leading `\b`). -/
def pat9K : K := litK "sleep".data (clsStar isSpc (cls (isChar 40) epsK))

/-- Pattern 10, `(?i)\bpg_sleep\s*\(`. -/
def pat10K : K := litK "pg_sleep".data (clsStar isSpc (cls (isChar 40) epsK))

/-- Pattern 11, `(?i)\bload_file\s*\(`. -/
def pat11K : K := litK "load_file".data (clsStar isSpc (cls (isChar 40) epsK))

/-- Pattern 12, `(?i)\binto\s+outfile\b`. -/
def pat12K : K := litK "into".data (clsPlus isSpc (litK "outfile".data bEnd))

/-- Pattern 13, `(?i)\bcopy\s+.*\s+from\b`. -/
def pat13K : K :=
  litK "copy".data (clsPlus isSpc (clsStar notNL (clsPlus isSpc (litK "from".data bEnd))))

/-- Pattern 14, `(?i)\bcopy\s+.*\s+to\b`. -/
def pat14K : K :=
  litK "copy".data (clsPlus isSpc (clsStar notNL (clsPlus isSpc (litK "to".data bEnd))))

/-- Tail `\b.*;\s*\w+` of pattern 15 (the `.*` cannot cross a newline,
the `\s*` can). -/
def tcTail : K := fun s => atBoundary s &&
  clsStar notNL (cls (isChar 59) (clsStar isSpc (clsPlus isWordC epsK))) s

/-- Pattern 15, `(?i)\b(begin|commit|rollback)\b.*;\s*\w+`. -/
def pat15K : K := fun s =>
  litK "begin".data tcTail s || litK "commit".data tcTail s || litK "rollback".data tcTail s

/-- The pattern source strings of `SUSPICIOUS_PATTERNS` (used verbatim in
the finding message), paired with the matcher for `re.search(pattern, sql)`. -/
def SUSPICIOUS_PATTERNS : List (String × (List Char → Bool)) :=
  [("(?i)" ++ sq ++ ".*?--", fun s => searchK pat1K s),
   ("(?i)\\bor\\b\\s+\\d+\\s*=\\s*\\d+", fun s => searchBW pat2K s false),
   ("(?i)\\bor\\b\\s*" ++ sq ++ "[^" ++ sq ++ "]+" ++ sq ++ "\\s*=\\s*" ++
      sq ++ "[^" ++ sq ++ "]+" ++ sq, fun s => searchBW pat3K s false),
   ("(?i)\\bunion\\b.*\\bselect\\b", fun s => searchBW pat4K s false),
   ("(?i)\\bdrop\\b", fun s => searchBW pat5K s false),
   ("(?i)\\btruncate\\b", fun s => searchBW pat6K s false),
   ("(?i)\\bgrant\\b|\\brevoke\\b", fun s => searchBW pat7K s false),
   (";\\s*(?!($|\\s*--|\\s*/\\*))(?=\\S)", fun s => searchK pat8K s),
   ("(?i)\\bsleep\\s*\\(", fun s => searchBW pat9K s false),
   ("(?i)\\bpg_sleep\\s*\\(", fun s => searchBW pat10K s false),
   ("(?i)\\bload_file\\s*\\(", fun s => searchBW pat11K s false),
   ("(?i)\\binto\\s+outfile\\b", fun s => searchBW pat12K s false),
   ("(?i)\\bcopy\\s+.*\\s+from\\b", fun s => searchBW pat13K s false),
   ("(?i)\\bcopy\\s+.*\\s+to\\b", fun s => searchBW pat14K s false),
   ("(?i)\\b(begin|commit|rollback)\\b.*;\\s*\\w+", fun s => searchBW pat15K s false)]

/-- The dictionaries produced by `check_sql_injection_risk`. -/
structure Finding where
  type : String
  message : String
  severity : String
deriving DecidableEq

/-- `check_sql_injection_risk`: iterate over `SUSPICIOUS_PATTERNS`,
append one finding for the first match and `break`. -/
def check_sql_injection_risk (sql : String) : List Finding :=
  match SUSPICIOUS_PATTERNS.find? (fun p => p.2 sql.data) with
  | some p => [⟨"sql", "Suspicious pattern detected: " ++ p.1, "high"⟩]
  | none => []

/-! ### `detect_transaction_bypass_attempt` -/

/-- `commit_bypass_pattern` = `(?i)\bcommit\b.*?;\s*(?!($|\s*--|\s*/\*))\w+`
with `re.DOTALL` (the `.` matches any character, newline included), after
the leading `\b`. -/
def commitBypassK : K :=
  litK "commit".data (fun s => atBoundary s &&
    clsStar (fun _ => true) (cls (isChar 59) (clsStar isSpc
      (fun t => !laInner t && clsPlus isWordC epsK t))) s)

/-- `detect_transaction_bypass_attempt`: `commit_bypass_pattern.search(sql)`
or `len(multiple_statements.findall(sql)) > 0`.  `multiple_statements` is
the same regex as suspicious pattern 8; `findall` returns a non-empty list
iff `search` succeeds, so the count test is the pattern-8 search. -/
def detect_transaction_bypass_attempt (sql : String) : Bool :=
  searchBW commitBypassK sql.data false || searchK pat8K sql.data

/-! ### Direct (spec-level) characterizations

These re-state, as plain scans over the character list, what the claims
say the regex machinery computes; the theorems below compare them with
the combinator implementations above. -/

/-- After skipping whitespace there is a word character. -/
def wordAfterWs (t : List Char) : Bool :=
  match t.dropWhile isSpc with
  | [] => false
  | c :: _ => isWordC c

/-- The text after a semicolon, once whitespace is skipped, is non-empty
and does not begin with the line-comment marker `--` or the block-comment
opener `/*`. -/
def notTrailingMarker (t : List Char) : Bool :=
  let r := t.dropWhile isSpc
  !r.isEmpty && !startsCI "--".data r && !startsCI "/*".data r

/-- Some semicolon in the string satisfies `notTrailingMarker`. -/
def stackedScan : List Char → Bool
  | [] => false
  | c :: r => (isChar 59 c && notTrailingMarker r) || stackedScan r

/-- Some semicolon in the string is followed, after optional whitespace,
by a word character. -/
def semiThenWord : List Char → Bool
  | [] => false
  | c :: r => (isChar 59 c && wordAfterWs r) || semiThenWord r

/-- Some whole-word, case-insensitive `COMMIT` occurrence is followed
(anywhere later) by a semicolon that `semiThenWord` accepts.  The boolean
argument records whether the previous character is a word character. -/
def commitScan : List Char → Bool → Bool
  | [], _ => false
  | c :: r, prevW =>
      (!prevW && (match stripCI "commit".data (c :: r) with
        | some rest => atBoundary rest && semiThenWord rest
        | none => false)) || commitScan r (isWordC c)

/-- Modelled from claim C3's words: the suffix after a semicolon is
"only a line comment" when it starts with `--` and nothing but whitespace
follows the comment's terminating newline (or there is no newline). -/
def onlyLineComment (r : List Char) : Bool :=
  startsCI "--".data r && (r.dropWhile (fun c => !isChar 10 c)).all isSpc

/-- Scan for the closer `*/`; afterwards only whitespace may remain (an
unterminated block comment extends to end of input). -/
def blockRest : List Char → Bool
  | [] => true
  | [_] => true
  | a :: b :: r => if isChar 42 a && isChar 47 b then r.all isSpc else blockRest (b :: r)

/-- Modelled from claim C3's words: the suffix is "only a block comment". -/
def onlyBlockComment (r : List Char) : Bool :=
  startsCI "/*".data r && blockRest (r.drop 2)

/-- Modelled from claim C3's words: the text after a semicolon is only
whitespace, a line comment, a block comment, or end-of-input. -/
def trailingTrivial (t : List Char) : Bool :=
  let r := t.dropWhile isSpc
  r.isEmpty || onlyLineComment r || onlyBlockComment r

/-- Modelled from claim C3's words: some semicolon is not followed only
by whitespace, a line comment, a block comment, or end-of-input. -/
def specClaimSemi : List Char → Bool
  | [] => false
  | c :: r => (isChar 59 c && !trailingTrivial r) || specClaimSemi r

/-- A whole-word, case-insensitive `SELECT` occurrence anywhere in the
remaining input (any characters, newlines included, may precede it). -/
def selectAnywhere : List Char → Bool → Bool
  | [], _ => false
  | c :: r, prevW =>
      (!prevW && (match stripCI "select".data (c :: r) with
        | some rest => atBoundary rest
        | none => false)) || selectAnywhere r (isWordC c)

/-- A whole-word `SELECT` occurrence reachable without crossing a newline. -/
def selectOnLine : List Char → Bool → Bool
  | [], _ => false
  | c :: r, prevW =>
      (!prevW && (match stripCI "select".data (c :: r) with
        | some rest => atBoundary rest
        | none => false)) || (notNL c && selectOnLine r (isWordC c))

/-- Modelled from claim C5's words: a whole-word `UNION` followed later —
across any characters including newlines — by a whole-word `SELECT`. -/
def unionThenSelect : List Char → Bool → Bool
  | [], _ => false
  | c :: r, prevW =>
      (!prevW && (match stripCI "union".data (c :: r) with
        | some rest => atBoundary rest && selectAnywhere rest true
        | none => false)) || unionThenSelect r (isWordC c)

/-- A whole-word `UNION` followed later, on the same line, by a
whole-word `SELECT`. -/
def unionSelectSameLine : List Char → Bool → Bool
  | [], _ => false
  | c :: r, prevW =>
      (!prevW && (match stripCI "union".data (c :: r) with
        | some rest => atBoundary rest && selectOnLine rest true
        | none => false)) || unionSelectSameLine r (isWordC c)

/-- After leading whitespace the statement starts with `FLUSH`, then at
least one whitespace character, then (after further whitespace) a word
character — the condition under which the `FLUSH` alternative of
`SYSTEM_REGEX` matches. -/
def flushThenWord (sql : String) : Bool :=
  match stripCI "FLUSH".data (sql.data.dropWhile isSpc) with
  | some rest =>
      (match rest with
       | c :: _ => isSpc c
       | [] => false) && wordAfterWs rest
  | none => false

/-! ### Helper lemmas about the character classes -/

theorem isSpc_false_of_word (c : Char) (h : isWordC c = true) : isSpc c = false := by
  simp only [isWordC, decide_eq_true_eq] at h
  simp only [isSpc, isChar, Bool.or_eq_false_iff, decide_eq_false_iff_not]
  omega

theorem isWordC_false_of_spc (c : Char) (h : isSpc c = true) : isWordC c = false := by
  simp only [isSpc, isChar, Bool.or_eq_true, decide_eq_true_eq] at h
  simp only [isWordC, decide_eq_false_iff_not]
  omega

theorem isChar10_false_of_nonspc (c : Char) (h : isSpc c = false) : isChar 10 c = false := by
  simp only [isSpc, isChar, Bool.or_eq_false_iff, decide_eq_false_iff_not] at h
  simp only [isChar, decide_eq_false_iff_not]
  omega

theorem ciEq_dash_false_of_word (c : Char) (h : isWordC c = true) : ciEq '-' c = false := by
  simp only [isWordC, decide_eq_true_eq] at h
  simp only [ciEq, decide_eq_false_iff_not]
  have h45 : ('-').toNat = 45 := rfl
  rw [h45]
  unfold lowerN
  split_ifs <;> omega

theorem ciEq_slash_false_of_word (c : Char) (h : isWordC c = true) : ciEq '/' c = false := by
  simp only [isWordC, decide_eq_true_eq] at h
  simp only [ciEq, decide_eq_false_iff_not]
  have h47 : ('/').toNat = 47 := rfl
  rw [h47]
  unfold lowerN
  split_ifs <;> omega

/-! ### Helper lemmas about the combinators -/

theorem litK_epsK (w t : List Char) : litK w epsK t = startsCI w t := by
  unfold litK startsCI epsK
  cases stripCI w t <;> rfl

theorem clsStar_epsK (p : Char → Bool) (t : List Char) : clsStar p epsK t = true := by
  cases t <;> rfl

/-- If the continuation accepts the suffix obtained by dropping the whole
leading run of `p`-characters, the star matches. -/
theorem clsStar_of_dropWhile (p : Char → Bool) (k : K) :
    ∀ s : List Char, k (s.dropWhile p) = true → clsStar p k s = true := by
  intro s
  induction s with
  | nil => intro h; simpa [clsStar, List.dropWhile] using h
  | cons c r ih =>
    intro h
    cases hp : p c with
    | true =>
      rw [List.dropWhile_cons_of_pos (by simp [hp])] at h
      simp [clsStar, hp, ih h]
    | false =>
      rw [List.dropWhile_cons_of_neg (by simp [hp])] at h
      simp [clsStar, h]

/-- At a non-whitespace character the lookahead body `($|\s*--|\s*/\*)`
reduces to "starts with `--` or starts with `/*`". -/
theorem laInner_nonspc (c : Char) (r : List Char) (h : isSpc c = false) :
    laInner (c :: r) = (startsCI "--".data (c :: r) || startsCI "/*".data (c :: r)) := by
  have h10 : isChar 10 c = false := isChar10_false_of_nonspc c h
  simp [laInner, dollarAt, h10, clsStar, h, litK_epsK]

theorem laInner_false_of_word (c : Char) (r : List Char) (h : isWordC c = true) :
    laInner (c :: r) = false := by
  rw [laInner_nonspc c r (isSpc_false_of_word c h)]
  have hd : "--".data = ['-', '-'] := rfl
  have hs : "/*".data = ['/', '*'] := rfl
  rw [hd, hs]
  simp [startsCI, stripCI, ciEq_dash_false_of_word c h, ciEq_slash_false_of_word c h]

/-! ### Evaluation lemmas for the direct scans -/

theorem nonSpcHead_cons (c : Char) (r : List Char) : nonSpcHead (c :: r) = !isSpc c := rfl

theorem notTrailingMarker_cons_spc (c : Char) (r : List Char) (h : isSpc c = true) :
    notTrailingMarker (c :: r) = notTrailingMarker r := by
  unfold notTrailingMarker
  rw [List.dropWhile_cons_of_pos (by simp [h])]

theorem notTrailingMarker_cons_nonspc (c : Char) (r : List Char) (h : isSpc c = false) :
    notTrailingMarker (c :: r) =
      (!startsCI "--".data (c :: r) && !startsCI "/*".data (c :: r)) := by
  unfold notTrailingMarker
  rw [List.dropWhile_cons_of_neg (by simp [h])]
  simp

theorem wordAfterWs_cons_spc (c : Char) (r : List Char) (h : isSpc c = true) :
    wordAfterWs (c :: r) = wordAfterWs r := by
  unfold wordAfterWs
  rw [List.dropWhile_cons_of_pos (by simp [h])]

theorem wordAfterWs_cons_nonspc (c : Char) (r : List Char) (h : isSpc c = false) :
    wordAfterWs (c :: r) = isWordC c := by
  unfold wordAfterWs
  rw [List.dropWhile_cons_of_neg (by simp [h])]

/-! ### The stacked-statement pattern as a direct scan -/

/-- The tail `\s*(?!($|\s*--|\s*/\*))(?=\S)` of pattern 8 is exactly
`notTrailingMarker`. -/
theorem clsStar_stacked_tail (t : List Char) :
    clsStar isSpc (fun s => !laInner s && nonSpcHead s) t = notTrailingMarker t := by
  induction t with
  | nil =>
    show (!laInner [] && nonSpcHead []) = notTrailingMarker []
    simp [nonSpcHead, notTrailingMarker, List.dropWhile]
  | cons c r ih =>
    show ((!laInner (c :: r) && nonSpcHead (c :: r)) ||
        (isSpc c && clsStar isSpc (fun s => !laInner s && nonSpcHead s) r)) =
      notTrailingMarker (c :: r)
    rw [ih, nonSpcHead_cons]
    cases hc : isSpc c with
    | true =>
      rw [notTrailingMarker_cons_spc c r hc]
      simp
    | false =>
      rw [notTrailingMarker_cons_nonspc c r hc, laInner_nonspc c r hc]
      simp [Bool.not_or, Bool.and_assoc]

theorem pat8K_cons (c : Char) (r : List Char) :
    pat8K (c :: r) = (isChar 59 c && notTrailingMarker r) := by
  show (isChar 59 c && clsStar isSpc (fun s => !laInner s && nonSpcHead s) r) = _
  rw [clsStar_stacked_tail]

/-- `re.search` of pattern 8 is the direct semicolon scan. -/
theorem searchK_pat8 (s : List Char) : searchK pat8K s = stackedScan s := by
  induction s with
  | nil => rfl
  | cons c r ih =>
    show (pat8K (c :: r) || searchK pat8K r) = stackedScan (c :: r)
    rw [ih, pat8K_cons]
    rfl

/-! ### The commit-bypass pattern as a direct scan -/

theorem clsPlus_word_cons (c : Char) (r : List Char) :
    clsPlus isWordC epsK (c :: r) = isWordC c := by
  show (isWordC c && clsStar isWordC epsK r) = isWordC c
  rw [clsStar_epsK, Bool.and_true]

/-- The tail `\s*(?!($|\s*--|\s*/\*))\w+` of the commit-bypass pattern is
exactly `wordAfterWs`. -/
theorem clsStar_commit_tail (t : List Char) :
    clsStar isSpc (fun u => !laInner u && clsPlus isWordC epsK u) t = wordAfterWs t := by
  induction t with
  | nil =>
    show (!laInner [] && clsPlus isWordC epsK []) = wordAfterWs []
    simp [clsPlus, wordAfterWs, List.dropWhile]
  | cons c r ih =>
    show ((!laInner (c :: r) && clsPlus isWordC epsK (c :: r)) ||
        (isSpc c && clsStar isSpc (fun u => !laInner u && clsPlus isWordC epsK u) r)) =
      wordAfterWs (c :: r)
    rw [ih, clsPlus_word_cons]
    cases hc : isSpc c with
    | true =>
      rw [wordAfterWs_cons_spc c r hc, isWordC_false_of_spc c hc]
      simp
    | false =>
      rw [wordAfterWs_cons_nonspc c r hc]
      cases hw : isWordC c with
      | true => simp [laInner_false_of_word c r hw]
      | false => simp

/-- The `.*?;` part (with `re.DOTALL`) followed by the tail is the direct
scan for a suitable semicolon. -/
theorem clsStar_any_semi (t : List Char) :
    clsStar (fun _ => true) (cls (isChar 59) (clsStar isSpc
      (fun u => !laInner u && clsPlus isWordC epsK u))) t = semiThenWord t := by
  induction t with
  | nil => rfl
  | cons c r ih =>
    show ((cls (isChar 59) (clsStar isSpc (fun u => !laInner u && clsPlus isWordC epsK u))
        (c :: r)) ||
      (true && clsStar (fun _ => true) (cls (isChar 59) (clsStar isSpc
        (fun u => !laInner u && clsPlus isWordC epsK u))) r)) = semiThenWord (c :: r)
    rw [ih]
    show ((isChar 59 c && clsStar isSpc (fun u => !laInner u && clsPlus isWordC epsK u) r) ||
      (true && semiThenWord r)) = semiThenWord (c :: r)
    rw [clsStar_commit_tail]
    simp [semiThenWord]

theorem commitBypassK_head (c : Char) (r : List Char) :
    commitBypassK (c :: r) =
      (match stripCI "commit".data (c :: r) with
       | some rest => atBoundary rest && semiThenWord rest
       | none => false) := by
  cases hst : stripCI "commit".data (c :: r) with
  | none => simp [commitBypassK, litK, hst]
  | some rest => simp [commitBypassK, litK, hst, clsStar_any_semi]

/-- `commit_bypass_pattern.search` is the direct `commitScan`. -/
theorem searchBW_commit (s : List Char) : ∀ pw : Bool,
    searchBW commitBypassK s pw = commitScan s pw := by
  induction s with
  | nil => intro pw; rfl
  | cons c r ih =>
    intro pw
    show ((!pw && commitBypassK (c :: r)) || searchBW commitBypassK r (isWordC c)) =
      commitScan (c :: r) pw
    rw [ih (isWordC c), commitBypassK_head]
    rfl

/-! ### Pattern 4 as a direct scan -/

theorem clsStarB_select (t : List Char) : ∀ pw : Bool,
    clsStarB notNL (fun prevW u => !prevW && litK "select".data bEnd u) t pw =
      selectOnLine t pw := by
  induction t with
  | nil => intro pw; cases pw <;> rfl
  | cons c r ih =>
    intro pw
    show ((!pw && litK "select".data bEnd (c :: r)) ||
        (notNL c && clsStarB notNL (fun prevW u => !prevW && litK "select".data bEnd u) r
          (isWordC c))) = selectOnLine (c :: r) pw
    rw [ih (isWordC c)]
    rfl

theorem pat4K_head (c : Char) (r : List Char) :
    pat4K (c :: r) =
      (match stripCI "union".data (c :: r) with
       | some rest => atBoundary rest && selectOnLine rest true
       | none => false) := by
  have hunf : pat4K (c :: r) =
      (match stripCI "union".data (c :: r) with
       | some rest => atBoundary rest &&
           clsStarB notNL (fun prevW u => !prevW && litK "select".data bEnd u) rest true
       | none => false) := rfl
  rw [hunf]
  cases hst : stripCI "union".data (c :: r) with
  | none => rfl
  | some rest =>
    show (atBoundary rest &&
        clsStarB notNL (fun prevW u => !prevW && litK "select".data bEnd u) rest true) =
      (atBoundary rest && selectOnLine rest true)
    rw [clsStarB_select rest true]

theorem searchBW_pat4 (s : List Char) : ∀ pw : Bool,
    searchBW pat4K s pw = unionSelectSameLine s pw := by
  induction s with
  | nil => intro pw; rfl
  | cons c r ih =>
    intro pw
    show ((!pw && pat4K (c :: r)) || searchBW pat4K r (isWordC c)) =
      unionSelectSameLine (c :: r) pw
    rw [ih (isWordC c), pat4K_head]
    rfl

/-! ### Sorting lemmas (`sorted` on Python strings) -/

theorem lexLe_total : ∀ a b : List Char, lexLe a b = true ∨ lexLe b a = true
  | [], _ => Or.inl rfl
  | _ :: _, [] => Or.inr rfl
  | a :: as, b :: bs => by
    simp only [lexLe, Bool.or_eq_true, Bool.and_eq_true, decide_eq_true_eq]
    rcases Nat.lt_trichotomy a.toNat b.toNat with h | h | h
    · exact Or.inl (Or.inl h)
    · rcases lexLe_total as bs with ih | ih
      · exact Or.inl (Or.inr ⟨h, ih⟩)
      · exact Or.inr (Or.inr ⟨h.symm, ih⟩)
    · exact Or.inr (Or.inl h)

theorem lexLe_trans : ∀ a b c : List Char,
    lexLe a b = true → lexLe b c = true → lexLe a c = true
  | [], _, _, _, _ => rfl
  | _ :: _, [], _, h, _ => by simp [lexLe] at h
  | _ :: _, _ :: _, [], _, h => by simp [lexLe] at h
  | a :: as, b :: bs, c :: cs, h1, h2 => by
    simp only [lexLe, Bool.or_eq_true, Bool.and_eq_true, decide_eq_true_eq] at h1 h2 ⊢
    rcases h1 with h1 | ⟨e1, r1⟩
    · rcases h2 with h2 | ⟨e2, r2⟩
      · exact Or.inl (by omega)
      · exact Or.inl (by omega)
    · rcases h2 with h2 | ⟨e2, r2⟩
      · exact Or.inl (by omega)
      · exact Or.inr ⟨by omega, lexLe_trans as bs cs r1 r2⟩

theorem strLe_total (a b : String) : strLe a b = true ∨ strLe b a = true :=
  lexLe_total a.data b.data

theorem strLe_trans (a b c : String) (h1 : strLe a b = true) (h2 : strLe b c = true) :
    strLe a c = true :=
  lexLe_trans a.data b.data c.data h1 h2

theorem insertSorted_perm (x : String) : ∀ l : List String, List.Perm (insertSorted x l) (x :: l)
  | [] => List.Perm.refl _
  | y :: ys => by
    unfold insertSorted
    split
    · exact List.Perm.refl _
    · exact ((insertSorted_perm x ys).cons y).trans (List.Perm.swap x y ys)

theorem sortStrs_perm : ∀ l : List String, List.Perm (sortStrs l) l
  | [] => List.Perm.refl _
  | x :: xs => (insertSorted_perm x (sortStrs xs)).trans ((sortStrs_perm xs).cons x)

theorem mem_insertSorted {a x : String} {l : List String} :
    a ∈ insertSorted x l ↔ a = x ∨ a ∈ l := by
  rw [(insertSorted_perm x l).mem_iff]
  simp

theorem pairwise_insertSorted (x : String) (l : List String)
    (h : l.Pairwise fun a b => strLe a b = true) :
    (insertSorted x l).Pairwise fun a b => strLe a b = true := by
  induction l with
  | nil => simp [insertSorted]
  | cons y ys ih =>
    rcases List.pairwise_cons.mp h with ⟨hy, hys⟩
    unfold insertSorted
    split
    · rename_i hxy
      refine List.pairwise_cons.mpr ⟨?_, h⟩
      intro b hb
      cases hb with
      | head => exact hxy
      | tail _ hmem => exact strLe_trans x y b hxy (hy b hmem)
    · rename_i hxy
      have hyx : strLe y x = true := by
        rcases strLe_total x y with h' | h'
        · exact absurd h' hxy
        · exact h'
      refine List.pairwise_cons.mpr ⟨?_, ih hys⟩
      intro b hb
      rcases mem_insertSorted.mp hb with rfl | hmem
      · exact hyx
      · exact hy b hmem

theorem pairwise_sortStrs : ∀ l : List String,
    (sortStrs l).Pairwise fun a b => strLe a b = true
  | [] => List.Pairwise.nil
  | x :: xs => pairwise_insertSorted x (sortStrs xs) (pairwise_sortStrs xs)

/-! ### First-match behaviour of `List.find?` -/

theorem find?_first {α : Type} (p : α → Bool) :
    ∀ l : List α,
      (l.find? p = none ∧ ∀ a ∈ l, p a = false) ∨
      (∃ i : Fin l.length, p (l.get i) = true ∧
        (∀ j : Fin l.length, j.val < i.val → p (l.get j) = false) ∧
        l.find? p = some (l.get i)) := by
  intro l
  induction l with
  | nil => exact Or.inl ⟨rfl, by intro a ha; cases ha⟩
  | cons a t ih =>
    cases hpa : p a with
    | true =>
      refine Or.inr ⟨⟨0, Nat.succ_pos _⟩, hpa, ?_, ?_⟩
      · intro j hj; exact absurd hj (Nat.not_lt_zero _)
      · simp [List.find?, hpa]
    | false =>
      cases ih with
      | inl h =>
        refine Or.inl ⟨?_, ?_⟩
        · simp [List.find?, hpa, h.1]
        · intro x hx
          cases hx with
          | head => exact hpa
          | tail _ hmem => exact h.2 x hmem
      | inr h =>
        obtain ⟨i, hpi, hprev, hfind⟩ := h
        refine Or.inr ⟨⟨i.val + 1, Nat.succ_lt_succ i.isLt⟩, hpi, ?_, ?_⟩
        · intro j hj
          obtain ⟨jv, hlt⟩ := j
          cases jv with
          | zero => exact hpa
          | succ m =>
            exact hprev ⟨m, Nat.lt_of_succ_lt_succ hlt⟩ (Nat.lt_of_succ_lt_succ hj)
        · simp [List.find?, hpa, hfind]

/-! ## The claims -/

/-- Claim C1: for every input string `sql`, `check_sql_injection_risk sql`
returns a list of length 0 or 1: the empty list when none of the 15
suspicious patterns matches, and exactly one finding — with type `sql`,
severity `high`, and a message naming the pattern source of the rule that
fired — for the earliest matching pattern in the fixed priority order
(patterns after the first match are not consulted). -/
theorem check_sql_injection_risk_first_match (sql : String) :
    SUSPICIOUS_PATTERNS.length = 15 ∧
    (check_sql_injection_risk sql).length ≤ 1 ∧
    ((∀ p ∈ SUSPICIOUS_PATTERNS, p.2 sql.data = false) → check_sql_injection_risk sql = []) ∧
    ((∃ p ∈ SUSPICIOUS_PATTERNS, p.2 sql.data = true) →
      ∃ i : Fin SUSPICIOUS_PATTERNS.length,
        (SUSPICIOUS_PATTERNS.get i).2 sql.data = true ∧
        (∀ j : Fin SUSPICIOUS_PATTERNS.length, j.val < i.val →
          (SUSPICIOUS_PATTERNS.get j).2 sql.data = false) ∧
        check_sql_injection_risk sql =
          [⟨"sql", "Suspicious pattern detected: " ++ (SUSPICIOUS_PATTERNS.get i).1, "high"⟩]) := by
  have H := find?_first (fun p => p.2 sql.data) SUSPICIOUS_PATTERNS
  refine ⟨rfl, ?_, ?_, ?_⟩
  · unfold check_sql_injection_risk
    cases SUSPICIOUS_PATTERNS.find? (fun p => p.2 sql.data) <;> simp
  · intro hall
    cases H with
    | inl h =>
      unfold check_sql_injection_risk
      rw [h.1]
    | inr h =>
      obtain ⟨i, hpi, _, _⟩ := h
      have hm := hall _ (SUSPICIOUS_PATTERNS.get_mem i.val i.isLt)
      rw [hm] at hpi
      cases hpi
  · intro hex
    cases H with
    | inl h =>
      obtain ⟨p, hmem, hp⟩ := hex
      rw [h.2 p hmem] at hp
      cases hp
    | inr h =>
      obtain ⟨i, hpi, hprev, hfind⟩ := h
      refine ⟨i, hpi, hprev, ?_⟩
      unfold check_sql_injection_risk
      rw [hfind]

/-- Witness for C1: no suspicious pattern matches a single space, so the
scanner returns no finding. -/
theorem check_sql_injection_risk_first_match_witness : check_sql_injection_risk " " = [] :=
  (check_sql_injection_risk_first_match " ").2.2.1 (by decide)

/-- Claim C2, counterexample: on `"SELECT * FROM t; DROP TABLE t;"` the
single finding is NOT for the stacked-statement rule (rule 8). -/
theorem check_stacked_not_first_counterexample :
    check_sql_injection_risk "SELECT * FROM t; DROP TABLE t;" ≠
      [⟨"sql", "Suspicious pattern detected: ;\\s*(?!($|\\s*--|\\s*/\\*))(?=\\S)", "high"⟩] := by
  decide

/-- Claim C2 (amended): on `"SELECT * FROM t; DROP TABLE t;"` the scanner
returns exactly one finding, and it is for the bare-`DROP` rule (rule 5,
list index 4), because that rule precedes the stacked-statement rule
(rule 8, list index 7) in the priority order, even though both rules
match this input. -/
theorem check_drop_fires_before_stacked :
    check_sql_injection_risk "SELECT * FROM t; DROP TABLE t;" =
      [⟨"sql", "Suspicious pattern detected: (?i)\\bdrop\\b", "high"⟩] ∧
    SUSPICIOUS_PATTERNS.get? 4 = some ("(?i)\\bdrop\\b", fun s => searchBW pat5K s false) ∧
    SUSPICIOUS_PATTERNS.get? 7 =
      some (";\\s*(?!($|\\s*--|\\s*/\\*))(?=\\S)", fun s => searchK pat8K s) ∧
    searchBW pat5K "SELECT * FROM t; DROP TABLE t;".data false = true ∧
    searchK pat8K "SELECT * FROM t; DROP TABLE t;".data = true := by
  refine ⟨by decide, rfl, rfl, by decide, by decide⟩

/-- Claim C3, counterexample: on `"; -- x\nDROP TABLE t"` the claim's
condition (b) holds — the semicolon is not followed only by whitespace, a
line comment, a block comment, or end-of-input, since a further statement
follows the comment line — yet the detector returns `false` (its regex
only excludes a semicolon whose following text starts with a comment
marker, regardless of what comes after the comment). -/
theorem bypass_trailing_comment_counterexample :
    specClaimSemi "; -- x\nDROP TABLE t".data = true ∧
    detect_transaction_bypass_attempt "; -- x\nDROP TABLE t" = false := by
  decide

/-- Claim C3 (amended): `detect_transaction_bypass_attempt sql` is true
iff (a) some whole-word, case-insensitive `COMMIT` is followed — possibly
much later, across any characters including newlines — by a semicolon
after which, skipping whitespace, a word character appears, or (b) some
semicolon is followed, after skipping whitespace, by a non-empty remainder
that does not begin with the line-comment marker `--` or the block-comment
opener `/*`.  In particular it returns true on
`"BEGIN READ ONLY; SELECT 1; COMMIT; DROP TABLE secrets;"` and false on
`"SELECT * FROM t WHERE name = 'O''Brien'"`. -/
theorem bypass_eq_commit_or_stacked (sql : String) :
    detect_transaction_bypass_attempt sql =
      (commitScan sql.data false || stackedScan sql.data) ∧
    detect_transaction_bypass_attempt "BEGIN READ ONLY; SELECT 1; COMMIT; DROP TABLE secrets;" =
      true ∧
    detect_transaction_bypass_attempt
      ("SELECT * FROM t WHERE name = " ++ sq ++ "O" ++ sq ++ sq ++ "Brien" ++ sq) = false := by
  refine ⟨?_, by decide, by decide⟩
  unfold detect_transaction_bypass_attempt
  rw [searchBW_commit, searchK_pat8]

/-- Claim C4: `detect_mutating_keywords` returns the structural category
labels first — at most one occurrence each of `DDL`, `PERMISSION`,
`SYSTEM`, `TRANSACTION_CONTROL`, in this order, exactly for the anchored
regexes that match — followed by the keywords of the fixed set that have
a whole-word, case-insensitive occurrence anywhere in the string,
upper-cased (the listed keywords are their own upper-case), deduplicated
and sorted lexicographically; the list is empty when nothing matches, and
word-boundary matching means `"SELECT created_at FROM t"` yields no
`CREATE` keyword (and an empty result). -/
theorem detect_mutating_keywords_shape :
    (∀ sql : String, ∃ kws : List String,
        detect_mutating_keywords sql =
          (if DDL_REGEX_search sql then ["DDL"] else []) ++
          (if PERMISSION_REGEX_search sql then ["PERMISSION"] else []) ++
          (if SYSTEM_REGEX_search sql then ["SYSTEM"] else []) ++
          (if TRANSACTION_CONTROL_REGEX_search sql then ["TRANSACTION_CONTROL"] else []) ++
          kws ∧
        kws.Pairwise (fun a b => strLe a b = true) ∧
        kws.Nodup ∧
        (∀ k : String, k ∈ kws ↔ (k ∈ MUTATING_KEYWORDS ∧ keywordOccurs k sql = true))) ∧
    detect_mutating_keywords "SELECT created_at FROM t" = [] := by
  constructor
  · intro sql
    refine ⟨sortStrs (MUTATING_KEYWORDS.filter fun k => keywordOccurs k sql), rfl,
      pairwise_sortStrs _, ?_, ?_⟩
    · exact ((sortStrs_perm _).nodup_iff).mpr (List.Nodup.filter _ (by decide))
    · intro k
      rw [(sortStrs_perm _).mem_iff, List.mem_filter]
  · decide

/-- Claim C5, counterexample: `"UNION\nSELECT 1"` has a whole-word
`UNION` followed (across a newline) by a whole-word `SELECT` and matches
none of scanner rules 1-3, yet the scanner returns no finding at all: the
`.*` in `(?i)\bunion\b.*\bselect\b` does not cross newlines. -/
theorem union_across_newline_counterexample :
    unionThenSelect "UNION\nSELECT 1".data false = true ∧
    searchK pat1K "UNION\nSELECT 1".data = false ∧
    searchBW pat2K "UNION\nSELECT 1".data false = false ∧
    searchBW pat3K "UNION\nSELECT 1".data false = false ∧
    check_sql_injection_risk "UNION\nSELECT 1" = [] := by
  decide

/-- Claim C5 (amended): for every string in which a whole-word `UNION` is
followed later, on the same line (no intervening newline), by a whole-word
`SELECT` — case-insensitively — and which matches none of scanner rules
1-3, `check_sql_injection_risk` returns exactly one finding, for the
`UNION … SELECT` rule. -/
theorem union_select_same_line_finding (sql : String)
    (h4 : unionSelectSameLine sql.data false = true)
    (h1 : searchK pat1K sql.data = false)
    (h2 : searchBW pat2K sql.data false = false)
    (h3 : searchBW pat3K sql.data false = false) :
    check_sql_injection_risk sql =
      [⟨"sql", "Suspicious pattern detected: (?i)\\bunion\\b.*\\bselect\\b", "high"⟩] := by
  have h4' : searchBW pat4K sql.data false = true := by
    rw [searchBW_pat4]
    exact h4
  unfold check_sql_injection_risk SUSPICIOUS_PATTERNS
  simp only [List.find?, h1, h2, h3, h4']
  rfl

/-- Witness for C5 (amended) at `"UNION SELECT 1"`. -/
theorem union_select_same_line_finding_witness :
    check_sql_injection_risk "UNION SELECT 1" =
      [⟨"sql", "Suspicious pattern detected: (?i)\\bunion\\b.*\\bselect\\b", "high"⟩] :=
  union_select_same_line_finding "UNION SELECT 1" (by decide) (by decide) (by decide) (by decide)

/-- Claim C6, counterexample: the statement that is exactly `"FLUSH"` is
NOT classified `SYSTEM` (the regex alternative `FLUSH\s+(...)?` demands at
least one whitespace character after `FLUSH`); the result is empty. -/
theorem flush_alone_not_system_counterexample :
    detect_mutating_keywords "FLUSH" = [] := by
  decide

/-- Claim C6 (amended): every statement that, after leading whitespace,
begins with `FLUSH` followed by at least one whitespace character and
then (after further whitespace) a word character — in particular `FLUSH`
followed by one of PRIVILEGES/HOSTS/LOGS/STATUS/TABLES — is classified
with category `SYSTEM`; but the bare statement `"FLUSH"` is not, since
the whitespace after `FLUSH` is mandatory in the regex. -/
theorem flush_then_word_is_system (sql : String) (h : flushThenWord sql = true) :
    "SYSTEM" ∈ detect_mutating_keywords sql := by
  have hs : SYSTEM_REGEX_search sql = true := by
    unfold SYSTEM_REGEX_search
    apply clsStar_of_dropWhile
    unfold flushThenWord at h
    cases hst : stripCI "FLUSH".data (sql.data.dropWhile isSpc) with
    | none =>
      rw [hst] at h
      cases h
    | some rest =>
      rw [hst] at h
      have hflush : flushAlt (sql.data.dropWhile isSpc) = true := by
        have hunf : flushAlt (sql.data.dropWhile isSpc) =
            (match stripCI "FLUSH".data (sql.data.dropWhile isSpc) with
             | some u => clsPlus isSpc (fun s =>
                 (["PRIVILEGES".data, "HOSTS".data, "LOGS".data, "STATUS".data,
                   "TABLES".data].any fun f => litK f bEnd s) ||
                 (match s with
                  | c :: _ => isWordC c
                  | [] => false)) u
             | none => false) := rfl
        rw [hunf, hst]
        rw [Bool.and_eq_true] at h
        obtain ⟨h1, h2⟩ := h
        cases rest with
        | nil => cases h1
        | cons c rr =>
          show (isSpc c && clsStar isSpc (fun s =>
              (["PRIVILEGES".data, "HOSTS".data, "LOGS".data, "STATUS".data,
                "TABLES".data].any fun f => litK f bEnd s) ||
              (match s with
               | c :: _ => isWordC c
               | [] => false)) rr) = true
          have h1' : isSpc c = true := h1
          rw [h1', Bool.true_and]
          apply clsStar_of_dropWhile
          have h2' : wordAfterWs rr = true := by
            rw [wordAfterWs_cons_spc c rr h1'] at h2
            exact h2
          unfold wordAfterWs at h2'
          cases hd : rr.dropWhile isSpc with
          | nil =>
            rw [hd] at h2'
            exact absurd h2' (by decide)
          | cons d ds =>
            rw [hd] at h2'
            have h2'' : isWordC d = true := h2'
            show ((["PRIVILEGES".data, "HOSTS".data, "LOGS".data, "STATUS".data,
                "TABLES".data].any fun f => litK f bEnd (d :: ds)) || isWordC d) = true
            rw [h2'', Bool.or_true]
      unfold sysAlt
      rw [hflush]
      simp
  unfold detect_mutating_keywords
  rw [hs]
  simp

/-- Witness for C6 (amended) at `"FLUSH TABLES"`. -/
theorem flush_then_word_is_system_witness :
    "SYSTEM" ∈ detect_mutating_keywords "FLUSH TABLES" :=
  flush_then_word_is_system "FLUSH TABLES" (by decide)

/-- Claim C7: all three entry points are total functions of the input
string — in this embedding they are structurally recursive Lean functions,
so they terminate with a definite answer on every input; on malformed
input such as a lone unbalanced quote each returns its no-match value. -/
theorem entry_points_total :
    (∀ sql : String, ∃ r : List String, detect_mutating_keywords sql = r) ∧
    (∀ sql : String, ∃ r : List Finding, check_sql_injection_risk sql = r) ∧
    (∀ sql : String, ∃ r : Bool, detect_transaction_bypass_attempt sql = r) ∧
    detect_mutating_keywords sq = [] ∧
    check_sql_injection_risk sq = [] ∧
    detect_transaction_bypass_attempt sq = false := by
  refine ⟨fun sql => ⟨_, rfl⟩, fun sql => ⟨_, rfl⟩, fun sql => ⟨_, rfl⟩,
    by decide, by decide, by decide⟩

/-- Claim C8: the three entry points are deterministic pure functions of
the input string: a second call on the same input yields the same output,
and the keyword/pattern tables are fixed constants.  (In the embedding —
as in the source, where the tables are module-level constants that the
functions only read — purity holds by construction.) -/
theorem entry_points_deterministic (sql : String) :
    detect_mutating_keywords sql = detect_mutating_keywords sql ∧
    check_sql_injection_risk sql = check_sql_injection_risk sql ∧
    detect_transaction_bypass_attempt sql = detect_transaction_bypass_attempt sql ∧
    MUTATING_KEYWORDS = MUTATING_KEYWORDS ∧
    SUSPICIOUS_PATTERNS = SUSPICIOUS_PATTERNS :=
  ⟨rfl, rfl, rfl, rfl, rfl⟩

/-- Claim C9: whenever the stacked-statement pattern of Injection Scanner
rule 8 (list index 7 of `SUSPICIOUS_PATTERNS`) matches an input, the
Bypass Detector flags that input: its second condition is the identical
regular expression. -/
theorem stacked_rule_implies_bypass (sql : String) (q : String × (List Char → Bool))
    (hq : SUSPICIOUS_PATTERNS.get? 7 = some q) (h : q.2 sql.data = true) :
    detect_transaction_bypass_attempt sql = true := by
  have hv : SUSPICIOUS_PATTERNS.get? 7 =
      some (";\\s*(?!($|\\s*--|\\s*/\\*))(?=\\S)", fun s => searchK pat8K s) := rfl
  rw [hv] at hq
  injection hq with hq'
  subst hq'
  have h8 : searchK pat8K sql.data = true := h
  unfold detect_transaction_bypass_attempt
  rw [h8, Bool.or_true]

/-- Witness for C9 at `"SELECT 1; DROP TABLE t"`. -/
theorem stacked_rule_implies_bypass_witness :
    detect_transaction_bypass_attempt "SELECT 1; DROP TABLE t" = true :=
  stacked_rule_implies_bypass "SELECT 1; DROP TABLE t" _ rfl (by decide)

/-- Claim C10: on the empty string each entry point returns its no-finding
value: the empty list, the empty list, and `false`. -/
theorem empty_string_no_findings :
    detect_mutating_keywords "" = [] ∧
    check_sql_injection_risk "" = [] ∧
    detect_transaction_bypass_attempt "" = false := by
  decide

end MutableSqlDetector
